import Mathlib

set_option maxHeartbeats 1000000

/-
Shallow embedding of src/data_processor.py (class FinancialDataProcessor)
of the analise-financeira-streamlit repository, together with theorems
settling the frozen claims about it.

Modelling conventions:
* characters are Unicode codepoints (Nat); a Python string is a `List Nat`;
* Python float values are PyFloat: NaN, signed infinity, or a finite value
  held as a rational (every finite literal reachable here is a decimal, so
  finite arithmetic is modelled exactly);
* a Python function that can raise returns an `Option` value, `none`
  standing for a raised exception;
* `pd.isna` inputs (None / NaN cells) are modelled by dedicated
  constructors / `Option.none` fields.
-/

namespace AnaliseFinanceira

/-- Python strings as lists of Unicode codepoints. -/
abbrev Str := List Nat

/-- Interpret a Lean string literal as a codepoint list. -/
def str (s : String) : Str := s.data.map Char.toNat

/-- Python str.upper restricted to the Latin repertoire appearing in the
rule tables: ASCII a–z and Latin-1 à–þ (except ÷) move down by 32;
every other codepoint is unchanged. -/
def upperChar (c : Nat) : Nat :=
  if (97 ≤ c ∧ c ≤ 122) ∨ (224 ≤ c ∧ c ≤ 254 ∧ c ≠ 247) then c - 32 else c

/-- Python str upper on a whole string. -/
def upperStr (s : Str) : Str := s.map upperChar

/-- Does `s` start with `pat` (exact codepoints)? -/
def startsWith : Str → Str → Bool
  | _, [] => true
  | [], _ :: _ => false
  | c :: cs, d :: ds => c == d && startsWith cs ds

/-- Python substring containment `pat in s`. -/
def hasSubstr : Str → Str → Bool
  | [], pat => pat.isEmpty
  | c :: t, pat => startsWith (c :: t) pat || hasSubstr t pat

/-- Fuelled scanner for `replaceAll`; the fuel (initially the string length,
which only shrinks) makes the recursion structural, so terms reduce. -/
def replaceAllF : Nat → Str → Str → Str → Str
  | 0, s, _, _ => s
  | _ + 1, [], _, _ => []
  | f + 1, c :: t, pat, rep =>
    if pat ≠ [] ∧ startsWith (c :: t) pat then
      rep ++ replaceAllF f ((c :: t).drop pat.length) pat rep
    else
      c :: replaceAllF f t pat rep

/-- Python `s.replace(pat, rep)` for a non-empty `pat`: replaces each
non-overlapping occurrence, scanning left to right. -/
def replaceAll (s pat rep : Str) : Str := replaceAllF s.length s pat rep

/-- Python whitespace — the set shared by str.isspace, str.strip and
str.split and by regex backslash-s on str patterns: tab through carriage
return, the C0 information separators, space, next line, no-break space,
ogham space mark, the general punctuation spaces, line and paragraph
separator, narrow no-break space, medium mathematical space and ideographic
space. -/
def isWs (c : Nat) : Bool :=
  decide ((9 ≤ c ∧ c ≤ 13) ∨ (28 ≤ c ∧ c ≤ 31) ∨ c = 32 ∨ c = 133 ∨ c = 160 ∨
    c = 5760 ∨ (8192 ≤ c ∧ c ≤ 8202) ∨ c = 8232 ∨ c = 8233 ∨ c = 8239 ∨
    c = 8287 ∨ c = 12288)

/-- Python s.lstrip with no argument. -/
def lstrip (s : Str) : Str := s.dropWhile isWs

/-- Python s.rstrip with no argument. -/
def rstrip (s : Str) : Str := (s.reverse.dropWhile isWs).reverse

/-- Python s.strip with no argument. -/
def pyStrip (s : Str) : Str := rstrip (lstrip s)

/-- ASCII decimal digit test.  (The Unicode decimal-digit transform that
float applies before parsing is modelled for ASCII digits only: no other
digits occur in the data or the claims, and every string the parser accepts
is accepted by float with the same value.) -/
def digit (c : Nat) : Bool := decide (48 ≤ c ∧ c ≤ 57)

/-- Numeric value of a digit run. -/
def digitsVal (l : Str) : Nat := l.foldl (fun a c => 10 * a + (c - 48)) 0

/-- ASCII lower-casing, for the case-insensitive inf / infinity / nan
keywords of float. -/
def lowerChar (c : Nat) : Nat := if 65 ≤ c ∧ c ≤ 90 then c + 32 else c

/-- Underscore validation and removal of PEP 515 numeric literals: every
underscore must sit directly between two digits; `prev` is the previous
character of the original string. -/
def removeUnderscoresAux : Option Nat → Str → Option Str
  | _, [] => some []
  | prev, c :: t =>
    if c = 95 then
      match prev, t with
      | some p, d :: _ =>
        if digit p && digit d then removeUnderscoresAux (some c) t else none
      | _, _ => none
    else
      match removeUnderscoresAux (some c) t with
      | none => none
      | some r => some (c :: r)

/-- Underscore validation and removal over a whole numeric token. -/
def removeUnderscores (s : Str) : Option Str := removeUnderscoresAux none s

/-- Exact value of `intpart.fracpart`. -/
def mantissaVal (ip fp : Str) : ℚ :=
  (digitsVal ip : ℚ) + (digitsVal fp : ℚ) / 10 ^ fp.length

/-- The exponent suffix after the e: an optional sign and a non-empty digit
run. -/
def parseExponent (s : Str) : Option Int :=
  match s with
  | 43 :: t => if t ≠ [] ∧ t.all digit then some ((digitsVal t : Int)) else none
  | 45 :: t => if t ≠ [] ∧ t.all digit then some (-(digitsVal t : Int)) else none
  | t => if t ≠ [] ∧ t.all digit then some ((digitsVal t : Int)) else none

/-- Unsigned numeric literal of float: digits with an optional dot and an
optional exponent, at least one mantissa digit, underscores only between
digits; the value is exact. -/
def parseNumber (s : Str) : Option ℚ :=
  match removeUnderscores s with
  | none => none
  | some s2 =>
    let ip := s2.takeWhile digit
    let r1 := s2.dropWhile digit
    match r1 with
    | [] => if ip = [] then none else some (digitsVal ip)
    | 46 :: t =>
      let fp := t.takeWhile digit
      let r2 := t.dropWhile digit
      if ip = [] ∧ fp = [] then none
      else
        match r2 with
        | [] => some (mantissaVal ip fp)
        | 101 :: te => (parseExponent te).map (fun e => mantissaVal ip fp * 10 ^ e)
        | 69 :: te => (parseExponent te).map (fun e => mantissaVal ip fp * 10 ^ e)
        | _ => none
    | 101 :: te =>
      if ip = [] then none
      else (parseExponent te).map (fun e => (digitsVal ip : ℚ) * 10 ^ e)
    | 69 :: te =>
      if ip = [] then none
      else (parseExponent te).map (fun e => (digitsVal ip : ℚ) * 10 ^ e)
    | _ => none

/-- A Python float value: a finite value, NaN, or a signed infinity.
Finite values are held as rationals: binary64 rounding and overflow to
infinity are not modelled, as every amount reachable in the claims is an
exact decimal far below the overflow threshold. -/
inductive PyFloat where
  | val : ℚ → PyFloat
  | nan : PyFloat
  | inf : Bool → PyFloat
deriving DecidableEq

/-- Unary minus on a Python float. -/
def pyNeg : PyFloat → PyFloat
  | .val q => .val (-q)
  | .nan => .nan
  | .inf s => .inf (!s)

/-- Python float applied to a string: strips surrounding whitespace, reads
an optional sign, then either the case-insensitive inf / infinity / nan
keywords or a numeric literal with optional dot, exponent and PEP 515
underscores.  `none` is a raised ValueError. -/
def parseFloat (s : Str) : Option PyFloat :=
  let keywordOrNumber := fun (t : Str) (neg : Bool) =>
    let tl := t.map lowerChar
    if tl = str "inf" ∨ tl = str "infinity" then some (PyFloat.inf neg)
    else if tl = str "nan" then some PyFloat.nan
    else (parseNumber t).map (fun q => PyFloat.val (if neg then -q else q))
  match pyStrip s with
  | 43 :: t => keywordOrNumber t false
  | 45 :: t => keywordOrNumber t true
  | t => keywordOrNumber t false

/-- A raw spreadsheet cell: a `pd.isna` value (None / NaN), a string, or a
number. -/
inductive PyVal where
  | null : PyVal
  | text : Str → PyVal
  | num : ℚ → PyVal
deriving DecidableEq

/-- The cleaning pipeline of clean_monetary_value:
removing double quotes, then R$, then spaces, then turning each comma
into a dot. -/
def cleaned (s : Str) : Str :=
  replaceAll (replaceAll (replaceAll (replaceAll s (str "\"") []) (str "R$") []) (str " ") [])
    (str ",") (str ".")

/-- FinancialDataProcessor.clean_monetary_value.  `some f` is a returned
float (possibly NaN or infinite), `none` a ValueError raised by
`float(...)`.  The head test `c = 45` is the startswith minus test of the
source; an empty cleaned string falls into the
`float(value) if value else 0.0` branch. -/
def clean_monetary_value : PyVal → Option PyFloat
  | .null => some (.val 0)
  | .text s =>
    if s = [] then some (.val 0)
    else
      match cleaned s with
      | [] => some (.val 0)
      | c :: t =>
        if c = 45 then
          if t ≠ [] ∧ t ≠ [45] then (parseFloat t).map pyNeg else some (.val 0)
        else parseFloat (c :: t)
  | .num q => some (.val q)

/-- Python `and` on two lists: an empty list is falsy, so `a and b`
evaluates to `a` when `a` is empty and to `b` otherwise. -/
def pyAnd (a b : List Str) : List Str := if a = [] then a else b

/-- The ordered rule table of categorize_operation, with the dict values
written as in the source; `pyAnd [kw] [kw2]` is the Python `and` of two
singleton keyword lists, which evaluates to the second singleton list, so every
table entry is a flat list of keyword strings. -/
def category_rules : List (String × List Str) :=
  [ ("Pix Recebido", pyAnd [str "PIX"] [str "RECEBIDO"]),
    ("Pix Enviado", pyAnd [str "PIX"] [str "ENVIADO"]),
    ("Pagamento Cartão Crédito", pyAnd [str "PAGAMENTO"] [str "CARTAO CREDITO"]),
    ("Cartão de Débito", [str "COMPRA CARTAO DEB"]),
    ("Transferência", [str "TED", str "DOC"]),
    ("Salário", [str "LIQUIDO DE VENCIMENTO"]),
    ("Contas/Serviços", [str "AGUA", str "ESGOTO", str "CLARO", str "TELEFONE", str "DEBITO AUT"]),
    ("Boleto", [str "BOLETO"]),
    ("Estorno", [str "ESTORNO"]),
    ("Saque", [str "SAQUE"]),
    ("Depósito", [str "DEPOSITO", str "DEPÓSITO"]),
    ("Rendimento", [str "REMUNERACAO APLICACAO"]),
    ("Taxas/IOF", [str "IOF"]) ]

/-- FinancialDataProcessor.categorize_operation.  Because every rule value is
a flat keyword list, `isinstance(keywords[0], list)` is always False in the
source and each rule is evaluated as an OR over its keywords; the first
matching rule (in table order) wins. -/
def categorize_operation (description : Option Str) : String :=
  match description with
  | none => "Não Informado"
  | some d =>
    let desc := upperStr d
    match category_rules.find? (fun r => r.2.any (fun kw => hasSubstr desc kw)) with
    | some r => r.1
    | none => "Outros"

/-- The ordered keyword table of categorize_establishment. -/
def establishment_categories : List (String × List Str) :=
  [ ("Transporte", [str "UBER", str "99", str "TAXI", str "CABIFY", str "METRO"]),
    ("Alimentação",
      [str "RESTAURANT", str "PIZZA", str "BURGER", str "FOOD", str "CAFE", str "BAR",
       str "LANCHE", str "HORTIFRUTI", str "MERCADO", str "SUBWAY", str "DONA MARIA",
       str "EXTRA", str "NORDESTE", str "IMPERADOR"]),
    ("Compras/Varejo", [str "SHOPPING", str "LOJA", str "MAGAZINE", str "MINI EXTRA"]),
    ("Serviços/Utilities",
      [str "CLARO", str "AGUA", str "ESGOTO", str "SABESP", str "ELETROPAULO",
       str "TELEFONE", str "SALON", str "CLINICA", str "HOSPITAL"]),
    ("Habitação", [str "CONDOMINIO", str "ALUGUEL", str "F. PEREIRA"]),
    ("Financeiro",
      [str "BANCO", str "CAIXA", str "FINANCEIRA", str "WISE", str "CARTAO CREDITO",
       str "IOF", str "BCE", str "AITRADBRASIL"]),
    ("Saúde", [str "SAUDE", str "BRADESCO SAUDE", str "DROGASIL"]),
    ("Pessoas Físicas",
      [str "PAMELA", str "CECILIA", str "LEONARDO", str "MARGARETE",
       str "LIDIANE", str "CARLOS", str "LORRAINE", str "MARLUCIA"]),
    ("Renda/Trabalho", [str "LIQUIDO DE VENCIMENTO", str "CNPJ", str "CAIXOTE COMERCIO"]),
    ("Educação/Serviços", [str "COPIADORA", str "ENCADERNA", str "IDEAL FOTOS"]),
    ("Entretenimento", [str "CLUBE DO INGRESSO"]),
    ("Tecnologia", [str "LETS SOFTWARE", str "VETST ECNOLOGIA"]) ]

/-- FinancialDataProcessor.categorize_establishment: first-match-wins OR
keyword rules over the upper-cased description. -/
def categorize_establishment (description : Option Str) : String :=
  match description with
  | none => "Não Informado"
  | some d =>
    let desc := upperStr d
    match establishment_categories.find? (fun r => r.2.any (fun kw => hasSubstr desc kw)) with
    | some r => r.1
    | none => "Outros"

/-- Accumulator pass for `pySplit`. -/
def pySplitAux : Str → Str → List Str
  | [], acc => if acc = [] then [] else [acc.reverse]
  | c :: t, acc =>
    if isWs c then
      if acc = [] then pySplitAux t [] else acc.reverse :: pySplitAux t []
    else pySplitAux t (c :: acc)

/-- Python `s.split()`: maximal runs of non-whitespace characters. -/
def pySplit (s : Str) : List Str := pySplitAux s []

/-- Python join of words with a single space between them. -/
def joinSpace : List Str → Str
  | [] => []
  | [w] => w
  | w :: ws => w ++ 32 :: joinSpace ws

/-- Case-insensitive `startsWith` (re.IGNORECASE literal matching). -/
def startsWithCI : Str → Str → Bool
  | _, [] => true
  | [], _ :: _ => false
  | c :: cs, d :: ds => (upperChar c == upperChar d) && startsWithCI cs ds

/-- The regex tail `(.+?)(?:\s|$)` applied at `rest`: the lazy capture grows
from one character until the next position is whitespace or the end of the
string.  (Descriptions are assumed newline-free, so `.` matches every
character.)  `none` exactly when `rest` is empty. -/
def lazyCapture (rest : Str) : Option Str :=
  match rest with
  | [] => none
  | c :: t => some (c :: t.takeWhile (fun x => !isWs x))

/-- The regex tail `\s+(.+?)(?:\s|$)` applied at `rest`: greedy whitespace,
then the lazy capture, including the one-step backtrack Python performs when
everything after the whitespace run is exhausted (the capture then swallows
the last whitespace character). -/
def wsThenCapture (rest : Str) : Option Str :=
  let w := (rest.takeWhile isWs).length
  if w = 0 then none
  else
    match rest.dropWhile isWs with
    | [] => if 2 ≤ w then some [(rest.takeWhile isWs).getLastD 32] else none
    | c :: t => some (c :: t.takeWhile (fun x => !isWs x))

/-- The regex tail `\s+\d{2}/\d{2}\s+(.+?)(?:\s|$)` of the CARTAO pattern
applied at `rest`.  `\s+` cannot overlap the digits, so greedy whitespace
consumption is exact. -/
def dateThenCapture (rest : Str) : Option Str :=
  if (rest.takeWhile isWs) = [] then none
  else
    match rest.dropWhile isWs with
    | d1 :: d2 :: 47 :: d3 :: d4 :: r =>
      if digit d1 && digit d2 && digit d3 && digit d4 then wsThenCapture r else none
    | _ => none

/-- re.search of a single literal followed by continuation `cont`, scanning
start positions left to right; a position where the literal matches but the
continuation fails is skipped, as in the regex engine. -/
def searchExtract (lit : Str) (cont : Str → Option Str) : Str → Option Str
  | [] => none
  | c :: t =>
    match (if startsWithCI (c :: t) lit then cont ((c :: t).drop lit.length) else none) with
    | some cap => some cap
    | none => searchExtract lit cont t

/-- re.search of an alternation of two literals (tried in order at each
position) followed by continuation `cont`. -/
def searchExtract2 (litA litB : Str) (cont : Str → Option Str) : Str → Option Str
  | [] => none
  | c :: t =>
    match (if startsWithCI (c :: t) litA then cont ((c :: t).drop litA.length) else none) with
    | some cap => some cap
    | none =>
      match (if startsWithCI (c :: t) litB then cont ((c :: t).drop litB.length) else none) with
      | some cap => some cap
      | none => searchExtract2 litA litB cont t

/-- FinancialDataProcessor.extract_establishment_name.  The patterns dict is
tried in insertion order; a pattern runs only when its key occurs in the
upper-cased description, and when its regex finds no match the loop falls
through to the next pattern.  The PAGAMENTO pattern `PAGAMENTO DE
BOLETO.*?(.+?)(?:\s|$)` matches with `.*?` empty whenever anything follows
the literal, so its continuation is `lazyCapture`. -/
def extract_establishment_name (description : Option Str) : Str :=
  match description with
  | none => str "Não Informado"
  | some d0 =>
    let desc := pyStrip d0
    let descU := upperStr desc
    match (if hasSubstr descU (str "PIX") then
        searchExtract2 (str "PIX RECEBIDO") (str "PIX ENVIADO") wsThenCapture desc else none) with
    | some m => pyStrip m
    | none =>
    match (if hasSubstr descU (str "CARTAO") then
        searchExtract (str "COMPRA CARTAO DEB MC") dateThenCapture desc else none) with
    | some m => pyStrip m
    | none =>
    match (if hasSubstr descU (str "PAGAMENTO") then
        searchExtract (str "PAGAMENTO DE BOLETO") lazyCapture desc else none) with
    | some m => pyStrip m
    | none =>
    match (if hasSubstr descU (str "TED") then
        searchExtract2 (str "TED RECEBIDA") (str "TED ENVIADA") wsThenCapture desc else none) with
    | some m => pyStrip m
    | none =>
    match (if hasSubstr descU (str "LIQUIDO") then
        searchExtract (str "LIQUIDO DE VENCIMENTO") wsThenCapture desc else none) with
    | some m => pyStrip m
    | none =>
      let words := pySplit desc
      if 3 < words.length then pyStrip (joinSpace (words.drop 3))
      else pyStrip desc

/-- A normalized transaction row as the analytics functions
(calculate_indicators, get_temporal_analysis, detect_anomalies) consume it;
every analytics claim concerns datasets of finite amounts, so Valor is a
rational here.  The omitted display columns are as in ProcRow. -/
structure Row where
  data : Int
  valor : ℚ
  descricao : Option Str
  categoria_operacao : String
  categoria_estabelecimento : String
  estabelecimento : Str
deriving DecidableEq

/-- Dates column of a processed dataset. -/
def datas (df : List Row) : List Int := df.map Row.data

/-- Minimum of the Data column over a non-empty dataset (0 as a junk value on the
empty dataset, where pandas would give NaT). -/
def data_min (df : List Row) : Int :=
  match datas df with
  | [] => 0
  | d :: t => t.foldl min d

/-- Maximum of the Data column over a non-empty dataset. -/
def data_max (df : List Row) : Int :=
  match datas df with
  | [] => 0
  | d :: t => t.foldl max d

/-- The indicator `dias_periodo = (periodo_fim - periodo_inicio).days + 1` from
calculate_indicators. -/
def dias_periodo (df : List Row) : Int := (data_max df - data_min df) + 1

/-- The dias_com_movimentacao indicator (nunique of the Data column) from
calculate_indicators. -/
def dias_com_movimentacao (df : List Row) : Nat := (datas df).dedup.length

/-- The outflow subset saidas: the rows with negative Valor. -/
def saidas (df : List Row) : List Row := df.filter (fun r => decide (r.valor < 0))

/-- The total_saidas indicator: absolute value of the outflow Valor sum. -/
def total_saidas (df : List Row) : ℚ := |((saidas df).map Row.valor).sum|

/-- Insertion into a descending-sorted list; insertion after equal elements
mirrors the stable tie handling of pandas nlargest with keep first. -/
def insertDesc (q : ℚ) : List ℚ → List ℚ
  | [] => [q]
  | x :: xs => if x < q then q :: x :: xs else x :: insertDesc q xs

/-- Values sorted descending (the order pandas nlargest uses). -/
def sortDesc (l : List ℚ) : List ℚ := l.foldr insertDesc []

/-- The `concentracao_top5_gastos` indicator of calculate_indicators:
nlargest-5-by-Valor takes the 5 largest **signed**
values of the (negative) outflow column, then
`abs(top5) / total_saidas * 100` when `total_saidas > 0`; `0` when there are
fewer than 5 outflow rows or no positive total. -/
def concentracao_top5_gastos (df : List Row) : ℚ :=
  if 5 ≤ (saidas df).length then
    let top5 := (sortDesc ((saidas df).map Row.valor)).take 5
    if 0 < total_saidas df then |top5.sum| / total_saidas df * 100 else 0
  else 0

/-- Insertion into an ascending-sorted list of dates. -/
def insertAsc (d : Int) : List Int → List Int
  | [] => [d]
  | x :: xs => if d < x then d :: x :: xs else x :: insertAsc d xs

/-- Dates sorted ascending (the key order of a pandas groupby). -/
def sortAsc (l : List Int) : List Int := l.foldr insertAsc []

/-- The gastos_diarios series of get_temporal_analysis (the outflow rows
grouped by date, Valor summed per day, absolute value taken): per-day absolute outflow totals,
indexed by day ascending. -/
def gastos_diarios (df : List Row) : List ℚ :=
  (sortAsc ((saidas df).map Row.data).dedup).map (fun d =>
    |(((saidas df).filter (fun r => r.data == d)).map Row.valor).sum|)

/-- The length of fluxo_diario: the number of distinct transaction days. -/
def fluxo_diario_len (df : List Row) : Nat := (datas df).dedup.length

/-- pandas `Series.mean()` over a value list (0 as a junk value on the empty
list, where pandas would give NaN). -/
def media (l : List ℚ) : ℚ := if l.length = 0 then 0 else l.sum / l.length

/-- The `tendencia_gastos` record of get_temporal_analysis; `crescente`
models the direction field, Crescente when tendencia > 0 else Decrescente. -/
structure Trend where
  primeira : ℚ
  segunda : ℚ
  variacao : ℚ
  crescente : Bool
deriving DecidableEq

/-- The trend part of get_temporal_analysis (source lines 356–368): present
only when the dataset has more than one distinct day and more than two
distinct outflow days; splits the daily outflow series at `len // 2`. -/
def tendencia_gastos (df : List Row) : Option Trend :=
  if 1 < fluxo_diario_len df then
    let g := gastos_diarios df
    if 2 < g.length then
      let p := media (g.take (g.length / 2))
      let s := media (g.drop (g.length / 2))
      let t := if 0 < p then (s - p) / p * 100 else 0
      some ⟨p, s, t, decide (0 < t)⟩
    else none
  else none

/-- The list `dias_sem_movimento` from detect_anomalies: the days of
the pd.date_range between the minimum and maximum Data with no transaction. -/
def dias_sem_movimento (df : List Row) : List Int :=
  ((List.range ((data_max df - data_min df).toNat + 1)).map
    (fun i : Nat => data_min df + (i : Int))).filter (fun d => !(datas df).contains d)

/-- The claimed reading of the top-5 concentration, following the words of the
words: 100 times the share of total outflow contributed by the 5 outflow
transactions of largest magnitude (same guards as the source indicator). -/
def spec_top5_share (df : List Row) : ℚ :=
  if 5 ≤ (saidas df).length then
    let top5 := (sortDesc ((saidas df).map (fun r => |r.valor|))).take 5
    if 0 < total_saidas df then top5.sum / total_saidas df * 100 else 0
  else 0

/-- Row builder for concrete datasets (description absent). -/
def mkRow (d : Int) (v : ℚ) : Row :=
  ⟨d, v, none, "Não Informado", "Não Informado", str "Não Informado"⟩

/-- Six outflows: five of magnitude 1–5 and one of magnitude 100. -/
def dfC6 : List Row :=
  [mkRow 0 (-1), mkRow 1 (-2), mkRow 2 (-3), mkRow 3 (-4), mkRow 4 (-5), mkRow 5 (-100)]

/-- Three days of outflow totals 10, 20, 30. -/
def dfC8 : List Row := [mkRow 1 (-10), mkRow 2 (-20), mkRow 3 (-30)]

/-- Four days of outflow totals 10, 20, 30, 40. -/
def dfW8 : List Row := [mkRow 1 (-10), mkRow 2 (-20), mkRow 3 (-30), mkRow 4 (-40)]

/-- Two rows three days apart (silent days in between). -/
def dfW9 : List Row := [mkRow 1 (-10), mkRow 4 5]

/-! Helper lemmas shared by the claim theorems. -/

theorem upperChar_idem (c : Nat) : upperChar (upperChar c) = upperChar c := by
  simp only [upperChar]
  split_ifs <;> omega

theorem upperStr_idem (s : Str) : upperStr (upperStr s) = upperStr s := by
  induction s with
  | nil => rfl
  | cons c t ih =>
    simp only [upperStr, List.map_cons] at ih ⊢
    rw [upperChar_idem, ih]

theorem foldl_min_le (l : List Int) (a : Int) : l.foldl min a ≤ a := by
  induction l generalizing a with
  | nil => simp
  | cons x xs ih => exact le_trans (ih (min a x)) (min_le_left a x)

theorem foldl_min_le_mem (l : List Int) : ∀ (a x : Int), x ∈ l → l.foldl min a ≤ x := by
  induction l with
  | nil => intro a x hx; cases hx
  | cons y ys ih =>
    intro a x hx
    rcases List.mem_cons.mp hx with rfl | hmem
    · exact le_trans (foldl_min_le ys (min a x)) (min_le_right a x)
    · exact ih (min a y) x hmem

theorem le_foldl_max (l : List Int) (a : Int) : a ≤ l.foldl max a := by
  induction l generalizing a with
  | nil => simp
  | cons x xs ih => exact le_trans (le_max_left a x) (ih (max a x))

theorem le_foldl_max_mem (l : List Int) : ∀ (a x : Int), x ∈ l → x ≤ l.foldl max a := by
  induction l with
  | nil => intro a x hx; cases hx
  | cons y ys ih =>
    intro a x hx
    rcases List.mem_cons.mp hx with rfl | hmem
    · exact le_trans (le_max_right a x) (le_foldl_max ys (max a x))
    · exact ih (max a y) x hmem

theorem data_min_le (df : List Row) (x : Int) (hx : x ∈ datas df) : data_min df ≤ x := by
  unfold data_min
  rcases hd : datas df with _ | ⟨d, t⟩
  · rw [hd] at hx; cases hx
  · rw [hd] at hx
    rcases List.mem_cons.mp hx with rfl | hmem
    · exact foldl_min_le t x
    · exact foldl_min_le_mem t d x hmem

theorem data_le_max (df : List Row) (x : Int) (hx : x ∈ datas df) : x ≤ data_max df := by
  unfold data_max
  rcases hd : datas df with _ | ⟨d, t⟩
  · rw [hd] at hx; cases hx
  · rw [hd] at hx
    rcases List.mem_cons.mp hx with rfl | hmem
    · exact le_foldl_max t x
    · exact le_foldl_max_mem t d x hmem

theorem data_min_le_data_max (df : List Row) (h : df ≠ []) : data_min df ≤ data_max df := by
  rcases hdf : df with _ | ⟨r, rs⟩
  · exact absurd hdf h
  · have h1 : r.data ∈ datas (r :: rs) := by simp [datas]
    exact le_trans (data_min_le _ _ h1) (data_le_max _ _ h1)

theorem dropWhile_head_false (p : Nat → Bool) (l : Str) (c : Nat) (t : Str)
    (h : l.dropWhile p = c :: t) : p c = false := by
  induction l with
  | nil => simp at h
  | cons x xs ih =>
    rw [List.dropWhile_cons] at h
    by_cases hx : p x = true
    · rw [if_pos hx] at h
      exact ih h
    · rw [if_neg hx] at h
      obtain ⟨rfl, -⟩ := List.cons.inj h
      simpa using hx

theorem dropWhile_reverse_ne_nil (l : Str) (h : l.dropWhile isWs ≠ []) :
    l.reverse.dropWhile isWs ≠ [] := by
  rw [Ne, List.dropWhile_eq_nil_iff] at h ⊢
  intro hall
  exact h fun x hx => hall x (List.mem_reverse.mpr hx)

theorem rstrip_append (a l : Str) (hne : l.reverse.dropWhile isWs ≠ []) :
    rstrip (a ++ l) = a ++ rstrip l := by
  unfold rstrip
  rw [List.reverse_append, List.dropWhile_append,
    if_neg (by simpa [List.isEmpty_iff] using hne), List.reverse_append,
    List.reverse_reverse]

theorem dropWhile_eq_self_of_nonws (l : Str) (h : ∀ x ∈ l, isWs x = false) :
    l.dropWhile isWs = l := by
  cases l with
  | nil => rfl
  | cons c t =>
    rw [List.dropWhile_cons, if_neg (by simp [h c (List.mem_cons_self c t)])]

theorem pyStrip_all_nonws (l : Str) (h : ∀ x ∈ l, isWs x = false) : pyStrip l = l := by
  unfold pyStrip lstrip rstrip
  rw [dropWhile_eq_self_of_nonws l h,
    dropWhile_eq_self_of_nonws l.reverse (fun x hx => h x (List.mem_reverse.mp hx)),
    List.reverse_reverse]

theorem startsWithCI_append_self (l rest : Str) : startsWithCI (l ++ rest) l = true := by
  induction l with
  | nil => simp [startsWithCI]
  | cons c t ih => simp [startsWithCI, List.cons_append, ih]

theorem searchExtract2_found (litA litB : Str) (cont : Str → Option Str) (rest : Str)
    (hA : litA ≠ []) (cap : Str) (hc : cont rest = some cap) :
    searchExtract2 litA litB cont (litA ++ rest) = some cap := by
  rcases hlit : litA with _ | ⟨a, as⟩
  · exact absurd hlit hA
  · subst hlit
    rw [List.cons_append, searchExtract2]
    have hci : startsWithCI (a :: (as ++ rest)) (a :: as) = true := by
      rw [← List.cons_append]
      exact startsWithCI_append_self (a :: as) rest
    rw [if_pos hci]
    have hdrop : (a :: (as ++ rest)).drop (a :: as).length = rest := by
      rw [← List.cons_append]
      exact List.drop_left (a :: as) rest
    rw [hdrop, hc]

theorem wsThenCapture_space (name : Str) (h2 : name.dropWhile isWs ≠ []) :
    wsThenCapture (32 :: name)
      = some ((name.dropWhile isWs).takeWhile (fun c => !isWs c)) := by
  rcases hnd : name.dropWhile isWs with _ | ⟨c, t⟩
  · exact absurd hnd h2
  · have hc : isWs c = false := dropWhile_head_false isWs name c t hnd
    have htw : (32 :: name).takeWhile isWs = 32 :: name.takeWhile isWs := by
      rw [List.takeWhile_cons, if_pos (by decide)]
    have hdw : (32 :: name).dropWhile isWs = name.dropWhile isWs := by
      rw [List.dropWhile_cons, if_pos (by decide)]
    simp only [wsThenCapture, htw, hdw, hnd, List.length_cons]
    rw [if_neg (by simp)]
    simp [List.takeWhile_cons, hc]

/-! Claim theorems. -/

/-- C10: classification is case-insensitive — categorize_operation and
categorize_establishment give the same category on a description and on its
upper-cased form, because both upper-case their input before matching and
upper-casing is idempotent. -/
theorem C10_case_insensitive (d : Str) :
    categorize_operation (some d) = categorize_operation (some (upperStr d)) ∧
    categorize_establishment (some d) = categorize_establishment (some (upperStr d)) := by
  refine ⟨?_, ?_⟩ <;>
    simp [categorize_operation, categorize_establishment, upperStr_idem]

/-- C2 counterexample: the parser does not strip `.` thousands separators, so
`clean_monetary_value` applied to "1.234,56" raises ValueError (modelled
`none`) instead of returning the claimed 1234.56. -/
theorem C2_cex :
    clean_monetary_value (.text (str "1.234,56")) ≠ some (PyFloat.val (1234.56 : ℚ)) := by
  decide

/-- C2 (amended): `,` is converted to `.` but `.` is not removed, so
`"-R$ 50,00" ↦ -50.0`, `"" ↦ 0.0` and `"-" ↦ 0.0` as claimed, while
`"1.234,56"` raises ValueError rather than yielding 1234.56. -/
theorem C2_examples :
    clean_monetary_value (.text (str "-R$ 50,00")) = some (.val (-50)) ∧
    clean_monetary_value (.text (str "")) = some (.val 0) ∧
    clean_monetary_value (.text (str "-")) = some (.val 0) ∧
    clean_monetary_value (.text (str "1.234,56")) = none := by
  refine ⟨?_, by decide, by decide, by decide⟩
  simp [clean_monetary_value, cleaned, replaceAll, replaceAllF, startsWith, str, parseFloat,
    parseNumber, removeUnderscores, removeUnderscoresAux, parseExponent, mantissaVal,
    pyStrip, lstrip, rstrip, isWs, lowerChar, pyNeg, digit, digitsVal]

/-- C1 counterexample: `clean_monetary_value` applied to "abc" raises ValueError
(modelled `none`) instead of returning a float, so the parser is not total
and unrecoverable inputs do not yield 0.0. -/
theorem C1_cex : clean_monetary_value (.text (str "abc")) = none := by decide

/-- C1 (amended): clean_monetary_value is not total.  It returns a float for
every None/NaN or numeric input and for every string whose cleaned form
(quotes, `R$` and spaces removed, `,` → `.`) is empty, a lone or doubled
minus, or — after the optional leading minus — a string Python float
accepts, including exponent, inf, nan and underscore forms; but a string
float rejects, such as "abc", raises ValueError instead of degrading to
0.0. -/
theorem C1_partial_totality :
    (∀ v : PyVal,
      (match v with
       | .null => True
       | .num _ => True
       | .text s =>
         s = [] ∨ cleaned s = [] ∨
           (∃ t, cleaned s = 45 :: t ∧ (t = [] ∨ t = [45] ∨ (parseFloat t).isSome)) ∨
           (∃ c t, cleaned s = c :: t ∧ c ≠ 45 ∧ (parseFloat (c :: t)).isSome)) →
      ∃ f, clean_monetary_value v = some f) ∧
    clean_monetary_value (.text (str "abc")) = none := by
  constructor
  · intro v hv
    cases v with
    | null => exact ⟨.val 0, rfl⟩
    | num q => exact ⟨.val q, rfl⟩
    | text s =>
      by_cases hs : s = []
      · subst hs
        exact ⟨.val 0, by simp [clean_monetary_value]⟩
      · rcases hv with h0 | hnil | ⟨t, hct, hcase⟩ | ⟨c, t, hct, hne, hsome⟩
        · exact absurd h0 hs
        · exact ⟨.val 0, by simp [clean_monetary_value, hs, hnil]⟩
        · by_cases htriv : t = [] ∨ t = [45]
          · refine ⟨.val 0, ?_⟩
            rcases htriv with rfl | rfl <;> simp [clean_monetary_value, hs, hct]
          · push_neg at htriv
            rcases hcase with h | h | hsome
            · exact absurd h htriv.1
            · exact absurd h htriv.2
            · obtain ⟨f, hf⟩ := Option.isSome_iff_exists.mp hsome
              refine ⟨pyNeg f, ?_⟩
              simp [clean_monetary_value, hs, hct, htriv.1, htriv.2, hf]
        · obtain ⟨f, hf⟩ := Option.isSome_iff_exists.mp hsome
          refine ⟨f, ?_⟩
          simp [clean_monetary_value, hs, hct, hne, hf]
  · decide

theorem C1_witness : ∃ f, clean_monetary_value (.text (str "1e3")) = some f :=
  C1_partial_totality.1 (.text (str "1e3"))
    (Or.inr (Or.inr (Or.inr ⟨49, [101, 51], by decide, by decide, by decide⟩)))

/-- C3: the failing input — a description containing `RECEBIDO` but not
`PIX` is still categorized "Pix Recebido", because the Python `and` of the
two singleton keyword lists collapses to the second list and the dead
`isinstance` AND branch never runs; the two-groups-both-must-contribute
reading of the claim (the visible intent of the source) is violated. -/
theorem C3_and_rule_collapsed :
    categorize_operation (some (str "RECEBIDO")) = "Pix Recebido" ∧
    hasSubstr (upperStr (str "RECEBIDO")) (str "PIX") = false := by decide

/-- C6: on six outflows of magnitudes 1,2,3,4,5,100,
nlargest-5-by-Valor picks the five largest signed (= smallest
magnitude) outflows, giving 15/115·100 = 300/23 ≈ 13%, while the claimed
"5 outflow transactions of largest magnitude" give 114/115·100 = 2280/23
≈ 99%. -/
theorem C6_top5_smallest_magnitude :
    concentracao_top5_gastos dfC6 = 300 / 23 ∧ spec_top5_share dfC6 = 2280 / 23 ∧
    (300 / 23 : ℚ) ≠ 2280 / 23 := by
  refine ⟨?_, ?_, by norm_num⟩
  · simp [concentracao_top5_gastos, saidas, total_saidas, sortDesc, insertDesc, dfC6, mkRow]
    norm_num
  · simp [spec_top5_share, saidas, total_saidas, sortDesc, insertDesc, dfC6, mkRow]
    norm_num

/-- C8 counterexample: on three outflow days with totals 10, 20, 30 the
first half taken by the code is the one-element slice [10] (mean 10), not the claimed
extra-element first half `[10, 20]` (mean 15): for odd counts the extra
element goes to the second half. -/
theorem C8_cex :
    tendencia_gastos dfC8 = some ⟨10, 25, 150, true⟩ ∧
    media ((gastos_diarios dfC8).take 2) = 15 ∧ (10 : ℚ) ≠ 15 := by
  refine ⟨?_, ?_, by norm_num⟩
  · simp [tendencia_gastos, fluxo_diario_len, gastos_diarios, saidas, sortAsc, insertAsc,
      media, dfC8, mkRow, datas]
    norm_num
  · simp [gastos_diarios, saidas, sortAsc, insertAsc, media, dfC8, mkRow]
    norm_num

/-- C8 (amended): the trend view splits the chronological daily outflow
totals at the integer midpoint with the **second** half receiving the extra
element for odd counts (`iloc[:n//2]` vs `iloc[n//2:]`), reports the
percentage change of the second-half mean relative to the first-half mean,
has direction "Crescente" exactly when the change is positive, and requires
at least 3 days with outflow (it is omitted below that). -/
theorem C8_trend_split (df : List Row) (t : Trend)
    (h : tendencia_gastos df = some t) :
    3 ≤ (gastos_diarios df).length ∧
    ((gastos_diarios df).length % 2 = 1 →
      ((gastos_diarios df).drop ((gastos_diarios df).length / 2)).length =
        ((gastos_diarios df).take ((gastos_diarios df).length / 2)).length + 1) ∧
    t.primeira = media ((gastos_diarios df).take ((gastos_diarios df).length / 2)) ∧
    t.segunda = media ((gastos_diarios df).drop ((gastos_diarios df).length / 2)) ∧
    (0 < t.primeira → t.variacao = (t.segunda - t.primeira) / t.primeira * 100) ∧
    (t.crescente = true ↔ 0 < t.variacao) := by
  simp only [tendencia_gastos] at h
  by_cases h1 : 1 < fluxo_diario_len df
  · rw [if_pos h1] at h
    by_cases h2 : 2 < (gastos_diarios df).length
    · rw [if_pos h2] at h
      simp only [Option.some.injEq] at h
      subst h
      refine ⟨by omega, ?_, rfl, rfl, ?_, ?_⟩
      · intro hodd
        simp only [List.length_drop, List.length_take]
        omega
      · intro hp
        simp only at hp ⊢
        rw [if_pos hp]
      · simp [decide_eq_true_eq]
    · rw [if_neg h2] at h
      exact absurd h (by simp)
  · rw [if_neg h1] at h
    exact absurd h (by simp)

theorem C8_witness :
    3 ≤ (gastos_diarios dfW8).length ∧
    ((gastos_diarios dfW8).length % 2 = 1 →
      ((gastos_diarios dfW8).drop ((gastos_diarios dfW8).length / 2)).length =
        ((gastos_diarios dfW8).take ((gastos_diarios dfW8).length / 2)).length + 1) ∧
    (15 : ℚ) = media ((gastos_diarios dfW8).take ((gastos_diarios dfW8).length / 2)) ∧
    (35 : ℚ) = media ((gastos_diarios dfW8).drop ((gastos_diarios dfW8).length / 2)) ∧
    ((0 : ℚ) < 15 → (400 / 3 : ℚ) = (35 - 15) / 15 * 100) ∧
    (true = true ↔ (0 : ℚ) < 400 / 3) :=
  C8_trend_split dfW8 ⟨15, 35, 400 / 3, true⟩ (by
    simp [tendencia_gastos, fluxo_diario_len, gastos_diarios, saidas, sortAsc, insertAsc,
      media, dfW8, mkRow, datas]
    norm_num)

/-- C9: for every non-empty dataset, the number of silent days reported by
detect_anomalies plus the number of distinct active days
(dias_com_movimentacao) equals the inclusive day count of the period,
`dias_periodo = (max - min).days + 1`. -/
theorem C9_silent_plus_active (df : List Row) (h : df ≠ []) :
    ((dias_sem_movimento df).length : Int) + (dias_com_movimentacao df : Int)
      = dias_periodo df := by
  have hle := data_min_le_data_max df h
  have hinj : Function.Injective (fun i : ℕ => data_min df + (i : Int)) := by
    intro i j hij
    simp only at hij
    omega
  have hNodup : ((List.range ((data_max df - data_min df).toNat + 1)).map
      (fun i : Nat => data_min df + (i : Int))).Nodup :=
    List.Nodup.map hinj (List.nodup_range _)
  have hLfin : ((List.range ((data_max df - data_min df).toNat + 1)).map
      (fun i : Nat => data_min df + (i : Int))).toFinset
      = Finset.Icc (data_min df) (data_max df) := by
    ext d
    simp only [List.mem_toFinset, List.mem_map, List.mem_range, Finset.mem_Icc]
    constructor
    · rintro ⟨i, hi, rfl⟩
      omega
    · intro hd
      exact ⟨(d - data_min df).toNat, by omega, by omega⟩
  have hsub : (datas df).toFinset ⊆ Finset.Icc (data_min df) (data_max df) := by
    intro d hd
    rw [List.mem_toFinset] at hd
    exact Finset.mem_Icc.mpr ⟨data_min_le df d hd, data_le_max df d hd⟩
  have hfil : (dias_sem_movimento df).length
      = ((Finset.Icc (data_min df) (data_max df)).filter
          (fun d => ¬ d ∈ (datas df).toFinset)).card := by
    have h1 : dias_sem_movimento df
        = ((List.range ((data_max df - data_min df).toNat + 1)).map
            (fun i : Nat => data_min df + (i : Int))).filter
          (fun d => !(datas df).contains d) := rfl
    rw [h1, ← List.toFinset_card_of_nodup (hNodup.filter _), List.toFinset_filter, hLfin]
    congr 1
    apply Finset.filter_congr
    intro d _
    simp
  have hactive : (dias_com_movimentacao df : Int) = ((datas df).toFinset.card : Int) := by
    unfold dias_com_movimentacao
    rw [List.card_toFinset]
  have hmem : ((Finset.Icc (data_min df) (data_max df)).filter
      (fun d => d ∈ (datas df).toFinset)).card = (datas df).toFinset.card := by
    rw [Finset.filter_mem_eq_inter, Finset.inter_eq_right.mpr hsub]
  have hsum := Finset.filter_card_add_filter_neg_card_eq_card
    (s := Finset.Icc (data_min df) (data_max df)) (fun d => d ∈ (datas df).toFinset)
  rw [hmem] at hsum
  have hcard : (Finset.Icc (data_min df) (data_max df)).card
      = (data_max df + 1 - data_min df).toNat := Int.card_Icc _ _
  rw [hfil, hactive]
  unfold dias_periodo
  omega

theorem C9_witness :
    ((dias_sem_movimento dfW9).length : Int) + (dias_com_movimentacao dfW9 : Int)
      = dias_periodo dfW9 :=
  C9_silent_plus_active dfW9 (by decide)

/-- C7 counterexample: the lazy capture of the PIX pattern stops
at the first whitespace, so `extract_establishment_name` applied to
"PIX RECEBIDO Maria Souza" returns only the first word "Maria", not the
whole remaining text
"Maria Souza". -/
theorem C7_cex :
    extract_establishment_name (some (str "PIX RECEBIDO Maria Souza")) = str "Maria" ∧
    str "Maria" ≠ str "Maria Souza" := by
  exact ⟨by decide, by decide⟩

/-- C7 (amended): on a description `"PIX RECEBIDO " ++ name` (with `name`
free of trailing whitespace and containing a non-whitespace character), the
extractor returns the **first whitespace-delimited word** of `name`, not the
entire remaining text. -/
theorem C7_first_word (name : Str) (h1 : rstrip name = name)
    (h2 : name.dropWhile isWs ≠ []) :
    extract_establishment_name (some (str "PIX RECEBIDO " ++ name))
      = (name.dropWhile isWs).takeWhile (fun c => !isWs c) := by
  have hrev : name.reverse.dropWhile isWs ≠ [] := dropWhile_reverse_ne_nil name h2
  have hps : pyStrip (str "PIX RECEBIDO " ++ name) = str "PIX RECEBIDO " ++ name := by
    unfold pyStrip
    have hpr : str "PIX RECEBIDO " = 80 :: str "IX RECEBIDO " := by decide
    have hl : lstrip (str "PIX RECEBIDO " ++ name) = str "PIX RECEBIDO " ++ name := by
      rw [hpr, List.cons_append]
      unfold lstrip
      rw [List.dropWhile_cons, if_neg (by decide)]
    rw [hl, rstrip_append _ _ hrev, h1]
  have hsubPIX : hasSubstr (upperStr (str "PIX RECEBIDO " ++ name)) (str "PIX") = true := by
    have e2 : upperStr (str "PIX RECEBIDO " ++ name)
        = str "PIX RECEBIDO " ++ upperStr name := by
      unfold upperStr
      rw [List.map_append]
      congr 1
    rw [e2]
    have hpr : str "PIX RECEBIDO " = 80 :: 73 :: 88 :: str " RECEBIDO " := by decide
    rw [hpr]
    simp [hasSubstr, startsWith, str]
  have hcap : searchExtract2 (str "PIX RECEBIDO") (str "PIX ENVIADO") wsThenCapture
      (str "PIX RECEBIDO " ++ name)
      = some ((name.dropWhile isWs).takeWhile (fun c => !isWs c)) := by
    have hsplit : str "PIX RECEBIDO " ++ name = str "PIX RECEBIDO" ++ (32 :: name) := by
      have h32 : str "PIX RECEBIDO " = str "PIX RECEBIDO" ++ [32] := by decide
      rw [h32, List.append_assoc]
      rfl
    rw [hsplit]
    exact searchExtract2_found _ _ _ _ (by decide) _ (wsThenCapture_space name h2)
  have hcapws : ∀ x ∈ (name.dropWhile isWs).takeWhile (fun c => !isWs c), isWs x = false := by
    intro x hx
    simpa using List.mem_takeWhile_imp hx
  simp only [extract_establishment_name, hps, hsubPIX, if_true, hcap]
  exact pyStrip_all_nonws _ hcapws

theorem C7_witness :
    extract_establishment_name (some (str "PIX RECEBIDO " ++ str "Maria Souza"))
      = ((str "Maria Souza").dropWhile isWs).takeWhile (fun c => !isWs c) :=
  C7_first_word (str "Maria Souza") (by decide) (by decide)

end AnaliseFinanceira

